import Mathlib

/-!
Shallow embedding of the outreach pipeline and engagement state engine of the
papooga-reach repository: the outcome-update and outreach-log-creation API
handlers, the inbound-message auto-transition, the follow-up work-queue
filter, template resolution (current and follow-up), the role/profile
matcher, template creation validation, and template iteration/versioning.
Each definition is translated from the TypeScript source it names.
-/

namespace PapoogaReach

/-- `outreach_logs.outcome` values (CHECK constraint in
20260109000003_add_outreach_outcome.sql). -/
inductive Outcome
  | pending
  | accepted
  | replied
deriving DecidableEq, Repr

/-- `messages.direction` values. -/
inductive Direction
  | sent
  | received
deriving DecidableEq, Repr

/-- `outreach_logs.action` values used by the UI tables. -/
inductive OutreachAction
  | note_sent
  | follow_up_sent
deriving DecidableEq, Repr

/-- `details.message_type` recorded on an outreach log: MessagingTable sends
its current mode ("connection" or "message"), FollowUpsTable sends
"follow_up". -/
inductive MessageType
  | connection
  | message
  | follow_up
deriving DecidableEq, Repr

/-- `message_templates.type` values (CHECK constraint in
20260118000002_add_zerobounce_fields.sql). -/
inductive TKind
  | connection_note
  | message
  | inmail
  | follow_up
deriving DecidableEq, Repr

/-- A row of `outreach_logs` as the components read it (id, person_id,
action, details.message_type, outcome, created_at). Timestamps are Nat
ticks. -/
structure OutreachLog where
  id : Nat
  person_id : Nat
  action : OutreachAction
  template_id : Option Nat
  message_type : MessageType
  outcome : Option Outcome
  created_at : Nat
deriving DecidableEq, Repr

/-- A row of `people` with the fields the claims touch. -/
structure Person where
  id : Nat
  title : Option String
  company_id : Option Nat
deriving DecidableEq, Repr

/-- A row of `companies` with the fields the claims touch. -/
structure Company where
  id : Nat
  is_contacted : Bool
deriving DecidableEq, Repr

/-- A row of `messages` with the fields the claims touch. -/
structure Message where
  person_id : Nat
  direction : Direction
deriving DecidableEq, Repr

/-- A row of `message_templates`. The source field `type` is called `tkind`
here (`type` is reserved in Lean). -/
structure Template where
  id : Nat
  profile_id : Nat
  name : String
  tkind : TKind
  content : String
  is_current : Bool
  sequence_number : Option Nat
  notes : Option String
  created_at : Nat
deriving DecidableEq, Repr

/-- A row of `profiles` together with its embedded `message_templates`, in
the (unspecified) order PostgREST returns them. -/
structure Profile where
  id : Nat
  roles : List String
  message_templates : List Template
deriving DecidableEq, Repr

/-! ## C1: outcome updates (PUT /api/outreach-logs/[id]) -/

/-- PUT /api/outreach-logs/[id] (src/app/api/outreach-logs/[id]/route.ts):
the only allowed field is `outcome`; the handler copies the requested value
onto the row unconditionally. The DB CHECK constraint restricts the value to
pending/accepted/replied, which the `Outcome` type already enforces. -/
def putOutcome (logs : List OutreachLog) (id : Nat) (req : Outcome) :
    List OutreachLog :=
  logs.map fun l => if l.id = id then { l with outcome := some req } else l

/-- ConversationsTable renders the "Accepted (no reply)" control for a
timeline outreach item only under this condition
(src/app/components/ConversationsTable.tsx, timeline render):
`item.outreachType === "connection" && (!item.outcome || item.outcome ===
"pending")`. -/
def acceptButtonShown (l : OutreachLog) : Bool :=
  l.message_type = MessageType.connection &&
    (l.outcome = none || l.outcome = some Outcome.pending)

/-! ## C2: inbound message auto-transition (ConversationsTable.sendMessage) -/

/-- The predicate of the `outreachLogs.find` in the `direction === "received"`
branch of `sendMessage`: action note_sent, details.message_type "connection",
outcome pending/accepted/unset. -/
def qualifiesForReply (o : OutreachLog) : Bool :=
  o.action = OutreachAction.note_sent &&
    o.message_type = MessageType.connection &&
    (o.outcome = some Outcome.pending || o.outcome = some Outcome.accepted ||
      o.outcome = none)

/-- The received-direction branch of `sendMessage`
(src/app/components/ConversationsTable.tsx): find the first qualifying log in
the list (fetched ordered by created_at descending) and PUT outcome replied
on it; if none qualifies, do nothing. -/
def onInboundReceived (logs : List OutreachLog) : List OutreachLog :=
  match logs.find? qualifiesForReply with
  | some o => putOutcome logs o.id Outcome.replied
  | none => logs

/-! ## C3: follow-up work queue (FollowUpsTable.fetchData) -/

/-- The people filter in FollowUpsTable.fetchData: keep a person iff their id
is in the set of person_ids of logs with outcome "accepted" and not in the
set of person_ids of messages with direction "received". -/
def followUpQueue (people : List Person) (logs : List OutreachLog)
    (msgs : List Message) : List Person :=
  people.filter fun p =>
    (logs.any fun log =>
      log.person_id = p.id && log.outcome = some Outcome.accepted) &&
    !(msgs.any fun m =>
      m.person_id = p.id && m.direction = Direction.received)

/-! ## C10: outreach-log creation side effect (POST /api/outreach-logs) -/

/-- The request body of POST /api/outreach-logs as the tables send it. -/
structure LogReq where
  person_id : Nat
  action : OutreachAction
  template_id : Option Nat
  message_type : MessageType
deriving DecidableEq, Repr

/-- The row POST /api/outreach-logs inserts: the body's fields plus the
outcome column default "pending". -/
def buildLogRow (body : LogReq) (newId now : Nat) : OutreachLog :=
  { id := newId, person_id := body.person_id, action := body.action,
    template_id := body.template_id, message_type := body.message_type,
    outcome := some Outcome.pending, created_at := now }

/-- POST /api/outreach-logs (src/app/api/outreach-logs/[id]/route.ts, POST
handler): insert the log; then, only when action is "note_sent", look up the
person and, when they carry a company_id, set that company's is_contacted to
true. Returns the new logs table and the new companies table. -/
def createOutreachLog (logs : List OutreachLog) (people : List Person)
    (companies : List Company) (body : LogReq) (newId now : Nat) :
    List OutreachLog × List Company :=
  let logs' := logs ++ [buildLogRow body newId now]
  let companies' :=
    if body.action = OutreachAction.note_sent then
      match people.find? fun p => p.id = body.person_id with
      | some p =>
        match p.company_id with
        | some cid =>
          companies.map fun c =>
            if c.id = cid then { c with is_contacted := true } else c
        | none => companies
      | none => companies
    else companies
  (logs', companies')

/-! ## C4 / C9: template resolution -/

/-- The candidate predicate of the exact step of
FollowUpsTable.getFollowUpTemplate. -/
def exactFollowUp (sequenceNumber : Nat) (t : Template) : Bool :=
  t.tkind = TKind.follow_up && t.is_current &&
    t.sequence_number = some sequenceNumber

/-- The candidate predicate of the fallback step of
FollowUpsTable.getFollowUpTemplate: `(t.sequence_number ?? 0) <=
sequenceNumber`. -/
def fallbackFollowUp (sequenceNumber : Nat) (t : Template) : Bool :=
  t.tkind = TKind.follow_up && t.is_current &&
    t.sequence_number.getD 0 ≤ sequenceNumber

/-- FollowUpsTable.getFollowUpTemplate
(src/app/components/FollowUpsTable.tsx): first look for a current follow_up
template whose sequence_number equals the requested number; otherwise sort
the current follow_up templates with `(sequence_number ?? 0)` at most the
requested number by descending sequence number (stable, as the JS sort) and
take the first, or none. -/
def getFollowUpTemplate (profile : Profile) (sequenceNumber : Nat) :
    Option Template :=
  match profile.message_templates.find? (exactFollowUp sequenceNumber) with
  | some t => some t
  | none =>
    ((profile.message_templates.filter (fallbackFollowUp sequenceNumber)).mergeSort
      fun a b => b.sequence_number.getD 0 ≤ a.sequence_number.getD 0).head?

/-- The template pick inside MessagingTable.populateMessage (and
aiPopulateSingle): `profile.message_templates.find(t => t.is_current &&
t.type === modeConfig.templateType)` — the first element, in the order the
profiles API returned the embedded templates. -/
def populateMessageTemplate (profile : Profile) (kind : TKind) :
    Option Template :=
  profile.message_templates.find? fun t => t.is_current && t.tkind = kind

/-! ## C6: template creation (POST /api/templates) -/

/-- The request body of POST /api/templates. -/
structure TemplateReq where
  profile_id : Nat
  name : String
  tkind : TKind
  content : String
  is_current : Option Bool
  notes : Option String
  sequence_number : Option Nat
deriving DecidableEq, Repr

/-- The row POST /api/templates builds (src/app/api/templates/route.ts):
`sequence_number: body.type === "follow_up" ? body.sequence_number : null`. -/
def buildTemplateRow (body : TemplateReq) (newId now : Nat) : Template :=
  { id := newId, profile_id := body.profile_id, name := body.name,
    tkind := body.tkind, content := body.content,
    is_current := body.is_current.getD false,
    sequence_number :=
      if body.tkind = TKind.follow_up then body.sequence_number else none,
    notes := body.notes, created_at := now }

/-- The `follow_up_sequence_number_check` CHECK constraint
(20260118000002_add_zerobounce_fields.sql): follow_up rows need
sequence_number not null and at least 1; other rows need it null. -/
def sequenceNumberCheck (t : Template) : Bool :=
  match t.tkind, t.sequence_number with
  | TKind.follow_up, some n => 1 ≤ n
  | TKind.follow_up, none => false
  | _, some _ => false
  | _, none => true

/-- POST /api/templates against a constraint-checking store: the insert
succeeds and appends the built row iff the row passes the CHECK constraint;
otherwise the handler surfaces the store error and no row is created. -/
def createTemplate (db : List Template) (body : TemplateReq)
    (newId now : Nat) : Except String (List Template × Template) :=
  let row := buildTemplateRow body newId now
  if sequenceNumberCheck row then Except.ok (db ++ [row], row)
  else Except.error "follow_up_sequence_number_check"

/-! ## C8: version-increment transformation (incrementVersionName) -/

/-- Strip a maximal trailing run of characters satisfying `p`: returns
(remaining front, stripped run), both in original order. -/
def splitTrailingRun (p : Char → Bool) (l : List Char) :
    List Char × List Char :=
  ((l.reverse.dropWhile p).reverse, (l.reverse.takeWhile p).reverse)

/-- `parseInt(digits, 10)` on an all-digit string. -/
def digitsToNat (ds : List Char) : Nat :=
  ds.foldl (fun a c => a * 10 + (c.toNat - 48)) 0

/-- The decimal digit character for n < 10. -/
def digitChar (n : Nat) : Char :=
  match n with
  | 0 => '0' | 1 => '1' | 2 => '2' | 3 => '3' | 4 => '4'
  | 5 => '5' | 6 => '6' | 7 => '7' | 8 => '8' | 9 => '9'
  | _ => '0'

/-- Fuel-driven digit production: enough fuel yields the full decimal
representation, least-significant digit appended last. -/
def toDecimalAux : Nat → Nat → List Char
  | 0, n => [digitChar n]
  | fuel + 1, n =>
    if n < 10 then [digitChar n]
    else toDecimalAux fuel (n / 10) ++ [digitChar (n % 10)]

/-- Decimal representation of a Nat as digit characters (no leading zeros,
matching JS template interpolation of a number); n itself is always enough
fuel. -/
def toDecimal (n : Nat) : List Char :=
  toDecimalAux n n

/-- JS `String.prototype.trim` on a character list. -/
def trimList (l : List Char) : List Char :=
  ((l.dropWhile Char.isWhitespace).reverse.dropWhile Char.isWhitespace).reverse

/-- The ECMAScript line terminators, which the regex `.` never matches
(unlike `\s`, which does match them). -/
def isLineTerminator (c : Char) : Bool :=
  c = '\n' ∨ c = '\r' ∨ c = '\u2028' ∨ c = '\u2029'

/-- Fuel-driven base-2 logarithm (floor); fuel n is always enough. -/
def log2fuel : Nat → Nat → Nat
  | 0, _ => 0
  | fuel + 1, n => if n < 2 then 0 else log2fuel fuel (n / 2) + 1

/-- Floor of log2, via fuel. -/
def intLog2 (n : Nat) : Nat := log2fuel n n

/-- The integer value of the nearest IEEE-754 binary64 to the integer n
(round half to even): exact at or below 2^53; above, rounded to the nearest
multiple of the binade's ulp. JS numbers are binary64, so `parseInt` and
`version + 1` both pass through this rounding. (Overflow to Infinity near
2^1024, and the exponential rendering of values at or above 10^21, lie
outside the range any statement below touches.) -/
def roundToDouble (n : Nat) : Nat :=
  if n ≤ 2 ^ 53 then n
  else
    let ulp := 2 ^ (intLog2 n - 52)
    let q := n / ulp
    let r := n % ulp
    if r * 2 < ulp then q * ulp
    else if ulp < r * 2 then (q + 1) * ulp
    else if q % 2 = 0 then q * ulp else (q + 1) * ulp

/-- `parseInt(digits, 10)` on an all-digit string: the exact integer value,
returned as a binary64 — i.e. rounded. -/
def parseIntJS (ds : List Char) : Nat := roundToDouble (digitsToNat ds)

/-- The lazy anchored match of `/^(.+?)\s*v(\d+)$/i` on a name: the digits
are the maximal trailing digit run (nonempty), the character before them
must be v or V, the gap before that v is the whitespace run before it, and
the captured group-1 is the shortest nonempty prefix — everything before the
whitespace run, or, when that is empty while something stands before the v,
the single first character of it. Because `.` does not match line
terminators, a group-1 that would contain one makes the whole regex fail
(every viable group-1 contains all characters before the whitespace gap).
Returns (group 1, `parseInt` of the digits). -/
def matchVersion (l : List Char) : Option (List Char × Nat) :=
  let pre := (splitTrailingRun Char.isDigit l).1
  let ds := (splitTrailingRun Char.isDigit l).2
  if ds.isEmpty then none
  else
    match pre.reverse with
    | [] => none
    | c :: restRev =>
      if c = 'v' ∨ c = 'V' then
        let base := (restRev.dropWhile Char.isWhitespace).reverse
        let base' := if base.isEmpty then restRev.reverse.take 1 else base
        if base'.isEmpty then none
        else if base'.any isLineTerminator then none
        else some (base', parseIntJS ds)
      else none

/-- incrementVersionName (src/unnamed/part_002, the
/api/templates/[id]/iterate route): on a match return
`baseName.trim() + " v" + (version + 1)`, else append `" v2"`; the
`version + 1` is binary64 addition, so it rounds. -/
def incrementVersionList (l : List Char) : List Char :=
  match matchVersion l with
  | some (base, n) => trimList base ++ ' ' :: 'v' :: toDecimal (roundToDouble (n + 1))
  | none => l ++ [' ', 'v', '2']

/-- String wrapper of the version-increment transformation. -/
def incrementVersionName (s : String) : String :=
  String.mk (incrementVersionList s.data)

/-- The version a name carries: the parsed `v<N>` marker, or 1 when the name
has none (so that one application of the increment always lands on 2). -/
def versionOfName (s : String) : Nat :=
  match matchVersion s.data with
  | some p => p.2
  | none => 1

/-! ## C7: template iteration (POST /api/templates/[id]/iterate) -/

/-- POST /api/templates/[id]/iterate (src/unnamed/part_002) against a
constraint-checking store: fetch the original; set its is_current to false;
insert a copy with the incremented name, is_current true, and — as in the
source, which omits the field — no sequence_number. The insert is subject to
the CHECK constraint; on violation the handler returns the error, after the
deactivation already happened. Returns the post-state and the result. -/
def iterateTemplate (db : List Template) (id newId now : Nat) :
    List Template × Except String Template :=
  match db.find? fun t => t.id = id with
  | none => (db, Except.error "Template not found")
  | some original =>
    let db1 := db.map fun t =>
      if t.id = id then { t with is_current := false } else t
    let newRow : Template :=
      { id := newId, profile_id := original.profile_id,
        name := incrementVersionName original.name, tkind := original.tkind,
        content := original.content, is_current := true,
        sequence_number := none, notes := original.notes,
        created_at := now }
    if sequenceNumberCheck newRow then (db1 ++ [newRow], Except.ok newRow)
    else (db1, Except.error "follow_up_sequence_number_check")

/-! ## C5: role/profile matcher (findProfileForTitle) -/

/-- Character-wise lowercase of a string (`toLowerCase`). -/
def lowerStr (s : String) : String :=
  String.mk (s.data.map Char.toLower)

/-- Does `l` begin with `pre`? -/
def beginsWith : List Char → List Char → Bool
  | [], _ => true
  | _ :: _, [] => false
  | p :: ps, c :: cs => p = c && beginsWith ps cs

/-- Does `needle` occur contiguously inside `hay`
(JS `String.prototype.includes`)? -/
def containsSub (hay needle : List Char) : Bool :=
  beginsWith needle hay ||
    match hay with
    | [] => false
    | _ :: t => containsSub t needle

/-- `hay.includes(needle)` on strings. -/
def strIncludes (hay needle : String) : Bool :=
  containsSub hay.data needle.data

/-- JS `\w` character class. -/
def isWordChar (c : Char) : Bool :=
  c.isAlphanum || c = '_'

/-- Try to consume `phrase` (stored lowercase) case-insensitively from the
front of `l`; return the remainder on success. -/
def dropMatchCI : List Char → List Char → Option (List Char)
  | [], l => some l
  | _ :: _, [] => none
  | p :: ps, c :: cs => if c.toLower = p then dropMatchCI ps cs else none

/-- `/\b<phrase>\b/i.test(title)`: scan every position of the title; a match
needs the previous character (none at the start) to not be a word character
and the character after the consumed phrase (none at the end) to not be a
word character. All phrases in the alias table start and end with word
characters, for which this is exactly the regex's word boundary. -/
def testWordPattern (phrase : List Char) : List Char → Bool → Bool
  | l, prevWord =>
    (!prevWord &&
      match dropMatchCI phrase l with
      | some [] => true
      | some (c :: _) => !isWordChar c
      | none => false) ||
    match l with
    | [] => false
    | c :: cs => testWordPattern phrase cs (isWordChar c)

/-- The fixed alias table of step 3 of findProfileForTitle, phrases
lowercased, in source order. -/
def aliasPatterns : List (List Char × String) :=
  [("ceo".data, "CEO"), ("coo".data, "COO"), ("cfo".data, "CFO"),
   ("cto".data, "CTO"), ("cmo".data, "CMO"), ("cro".data, "CRO"),
   ("cpo".data, "CPO"), ("chro".data, "CHRO"),
   ("chief executive officer".data, "CEO"),
   ("chief operating officer".data, "COO"),
   ("chief financial officer".data, "CFO"),
   ("chief technology officer".data, "CTO"),
   ("vice president".data, "VP"), ("vp".data, "VP"), ("svp".data, "SVP"),
   ("evp".data, "EVP"), ("managing director".data, "Managing Director"),
   ("general manager".data, "General Manager")]

/-- The result record of findProfileForTitle. -/
structure MatchResult where
  profile : Profile
  matchedRole : String
deriving DecidableEq, Repr

/-- Step 3 of findProfileForTitle: for the first alias pattern that tests
true against the raw title and whose canonical role some profile carries
(case-insensitively), return that profile and the canonical role. -/
def aliasFallback (title : String) (profiles : List Profile) :
    Option MatchResult :=
  aliasPatterns.findSome? fun pr =>
    if testWordPattern pr.1 title.data false then
      (profiles.find? fun profile =>
        profile.roles.any fun r => lowerStr r = lowerStr pr.2).map
        fun profile => ⟨profile, pr.2⟩
    else none

/-- findProfileForTitle (src/app/components/MessagingTable.tsx and the
identical copy in FollowUpsTable.tsx): null/empty title yields none; step 1
tries an exact case-insensitive match of the whole title against each
profile's roles in order; step 2 scans profiles in order, each profile's
roles sorted longest-first (stable, as the JS sort), and returns the first
role contained in the title; step 3 falls back to the alias table. -/
def findProfileForTitle (title : Option String) (profiles : List Profile) :
    Option MatchResult :=
  match title with
  | none => none
  | some t =>
    if t = "" then none
    else
      let titleLower := lowerStr t
      match profiles.findSome? (fun profile =>
          (profile.roles.find? fun r => lowerStr r = titleLower).map
            fun r => MatchResult.mk profile r) with
      | some res => some res
      | none =>
        match profiles.findSome? (fun profile =>
            ((profile.roles.mergeSort fun a b => b.length ≤ a.length).find?
                fun r => strIncludes titleLower (lowerStr r)).map
              fun r => MatchResult.mk profile r) with
        | some res => some res
        | none => aliasFallback t profiles

/-! ## Concrete rows used by counterexamples and witnesses -/

/-- A connection outreach log that already reached outcome replied. -/
def exRepliedLog : OutreachLog :=
  { id := 1, person_id := 1, action := OutreachAction.note_sent,
    template_id := none, message_type := MessageType.connection,
    outcome := some Outcome.replied, created_at := 0 }

/-- A pending note_sent outreach log whose details.message_type is
"message" (the MessagingTable "message" mode). -/
def exMessageModeLog : OutreachLog :=
  { id := 1, person_id := 1, action := OutreachAction.note_sent,
    template_id := none, message_type := MessageType.message,
    outcome := some Outcome.pending, created_at := 0 }

/-- An accepted connection log used by the C2 witness (not qualifying:
already replied). -/
def exRepliedLog2 : OutreachLog :=
  { id := 7, person_id := 2, action := OutreachAction.note_sent,
    template_id := none, message_type := MessageType.connection,
    outcome := some Outcome.replied, created_at := 3 }

/-- Current follow_up template at sequence 1. -/
def exSeq1 : Template :=
  { id := 1, profile_id := 1, name := "Follow Up 1",
    tkind := TKind.follow_up, content := "Hi", is_current := true,
    sequence_number := some 1, notes := none, created_at := 10 }

/-- Current follow_up template at sequence 2. -/
def exSeq2 : Template :=
  { id := 2, profile_id := 1, name := "Follow Up 2",
    tkind := TKind.follow_up, content := "Still there?", is_current := true,
    sequence_number := some 2, notes := none, created_at := 11 }

/-- A profile with current follow_up templates at sequences 1 and 2 only. -/
def exFollowUpProfile : Profile :=
  { id := 1, roles := ["CEO"], message_templates := [exSeq1, exSeq2] }

/-- Older current message template of the C9 profile. -/
def exOlderCurrent : Template :=
  { id := 1, profile_id := 1, name := "old", tkind := TKind.message,
    content := "a", is_current := true, sequence_number := none,
    notes := none, created_at := 1 }

/-- Newer current message template of the C9 profile. -/
def exNewerCurrent : Template :=
  { id := 2, profile_id := 1, name := "new", tkind := TKind.message,
    content := "b", is_current := true, sequence_number := none,
    notes := none, created_at := 2 }

/-- A profile whose embedded template list holds the older current template
before the newer one. -/
def exTwoCurrentProfile : Profile :=
  { id := 1, roles := [], message_templates := [exOlderCurrent, exNewerCurrent] }

/-- First profile of the C5 counterexample: the shorter role. -/
def exManagerProfile : Profile := { id := 1, roles := ["Manager"], message_templates := [] }

/-- Second profile of the C5 counterexample: the longer role. -/
def exProjectManagerProfile : Profile :=
  { id := 2, roles := ["Project Manager"], message_templates := [] }

/-- A non-follow_up creation request carrying a sequence number. -/
def exMessageReqWithSeq : TemplateReq :=
  { profile_id := 1, name := "T", tkind := TKind.message, content := "c",
    is_current := some true, notes := none, sequence_number := some 3 }

/-- A follow_up creation request without a sequence number. -/
def exFollowUpReqNoSeq : TemplateReq :=
  { profile_id := 1, name := "F", tkind := TKind.follow_up, content := "c",
    is_current := some true, notes := none, sequence_number := none }

/-- A current follow_up template fed to iterate. -/
def exIterFollowUp : Template :=
  { id := 1, profile_id := 1, name := "Follow Up 1",
    tkind := TKind.follow_up, content := "Hi again", is_current := true,
    sequence_number := some 1, notes := none, created_at := 0 }

/-- A current message template fed to iterate. -/
def exIterMessage : Template :=
  { id := 3, profile_id := 1, name := "Cold Intro", tkind := TKind.message,
    content := "Hello", is_current := true, sequence_number := none,
    notes := some "n", created_at := 0 }

/-- A person with a company, for C10. -/
def exPerson : Person := { id := 1, title := some "CEO", company_id := some 5 }

/-- That person's company, not yet contacted. -/
def exCompany : Company := { id := 5, is_contacted := false }

/-- A request creating a note_sent log for that person. -/
def exNoteReq : LogReq :=
  { person_id := 1, action := OutreachAction.note_sent, template_id := none,
    message_type := MessageType.connection }

/-! ## Helper lemmas -/

theorem takeWhile_eq_self_of {p : α → Bool} {l : List α}
    (h : ∀ x ∈ l, p x = true) : l.takeWhile p = l := by
  induction l with
  | nil => rfl
  | cons a t ih =>
    have ha := h a (by simp)
    have ht := ih fun x hx => h x (by simp [hx])
    simp [List.takeWhile_cons, ha, ht]

theorem dropWhile_eq_nil_of {p : α → Bool} {l : List α}
    (h : ∀ x ∈ l, p x = true) : l.dropWhile p = [] := by
  induction l with
  | nil => rfl
  | cons a t ih =>
    have ha := h a (by simp)
    have ht := ih fun x hx => h x (by simp [hx])
    simp [List.dropWhile_cons, ha, ht]

theorem map_eq_self_of {f : α → α} {l : List α}
    (h : ∀ x ∈ l, f x = x) : l.map f = l := by
  induction l with
  | nil => rfl
  | cons a t ih =>
    simp only [List.map_cons, h a (by simp)]
    simp only [List.cons.injEq, true_and]
    exact ih fun x hx => h x (by simp [hx])

/-! ## C1 -/

/-- C1 counterexample: a PUT requesting outcome accepted on an event whose
stored outcome is already replied succeeds and overwrites the stored outcome
with the backward value, where the claim says the stored outcome stays
unchanged. -/
theorem c1_backward_move_applied :
    exRepliedLog.outcome = some Outcome.replied ∧
    (putOutcome [exRepliedLog] 1 Outcome.accepted).map OutreachLog.outcome =
      [some Outcome.accepted] := by
  decide

/-- C1 (amended): an outcome update applies the requested outcome to the
targeted event unconditionally — also when the move is backward — and leaves
every other event unchanged; forward-only gating exists only in the UI,
which renders the mark-accepted control exactly when the event is a
connection outreach whose outcome is pending or unset. -/
theorem c1_outcome_update_unconditional (logs : List OutreachLog) (id : Nat)
    (req : Outcome) (l : OutreachLog) (hl : l ∈ logs) :
    (l.id = id → { l with outcome := some req } ∈ putOutcome logs id req) ∧
    (l.id ≠ id → l ∈ putOutcome logs id req) ∧
    (acceptButtonShown l = true ↔
      l.message_type = MessageType.connection ∧
        (l.outcome = none ∨ l.outcome = some Outcome.pending)) := by
  refine ⟨fun h => ?_, fun h => ?_, ?_⟩
  · exact List.mem_map.mpr ⟨l, hl, by simp [h]⟩
  · exact List.mem_map.mpr ⟨l, hl, by simp [h]⟩
  · simp [acceptButtonShown]

/-- Witness for C1: the amended theorem applied to the replied log. -/
theorem c1_witness :
    { exRepliedLog with outcome := some Outcome.accepted } ∈
      putOutcome [exRepliedLog] 1 Outcome.accepted :=
  (c1_outcome_update_unconditional [exRepliedLog] 1 Outcome.accepted
    exRepliedLog (by simp)).1 (by decide)

/-! ## C3 -/

/-- C3: a contact is in the needs-follow-up queue iff they are a known
person with at least one outreach event of outcome accepted and no message
of direction received. -/
theorem c3_follow_up_eligibility (people : List Person)
    (logs : List OutreachLog) (msgs : List Message) (p : Person) :
    p ∈ followUpQueue people logs msgs ↔
      p ∈ people ∧
      (∃ log ∈ logs,
        log.person_id = p.id ∧ log.outcome = some Outcome.accepted) ∧
      ∀ m ∈ msgs, ¬(m.person_id = p.id ∧ m.direction = Direction.received) := by
  simp only [followUpQueue, List.mem_filter, Bool.and_eq_true,
    Bool.not_eq_true', List.any_eq_false, List.any_eq_true,
    Bool.and_eq_false_iff, decide_eq_true_eq]

/-! ## C10 -/

/-- C10: creating an outreach log appends exactly the new event; when the
action is note_sent and the person carries a company_id, the creation also
sets that company's is_contacted to true (leaving companies with other ids
unchanged); a follow_up_sent creation leaves the companies table unchanged. -/
theorem c10_note_sent_marks_company_contacted (logs : List OutreachLog)
    (people : List Person) (companies : List Company) (body : LogReq)
    (newId now : Nat) (p : Person) (cid : Nat)
    (hp : people.find? (fun q => q.id = body.person_id) = some p)
    (hc : p.company_id = some cid) :
    (createOutreachLog logs people companies body newId now).1 =
      logs ++ [buildLogRow body newId now] ∧
    (body.action = OutreachAction.note_sent →
      (createOutreachLog logs people companies body newId now).2 =
        (companies.map fun c =>
          if c.id = cid then { c with is_contacted := true } else c) ∧
      (∀ c ∈ companies, c.id = cid →
        { c with is_contacted := true } ∈
          (createOutreachLog logs people companies body newId now).2) ∧
      (∀ c ∈ companies, c.id ≠ cid →
        c ∈ (createOutreachLog logs people companies body newId now).2)) ∧
    (body.action = OutreachAction.follow_up_sent →
      (createOutreachLog logs people companies body newId now).2 =
        companies) := by
  refine ⟨rfl, fun ha => ?_, fun ha => ?_⟩
  · have he : (createOutreachLog logs people companies body newId now).2 =
        companies.map fun c =>
          if c.id = cid then { c with is_contacted := true } else c := by
      simp [createOutreachLog, ha, hp, hc]
    refine ⟨he, fun c hcmem hcid => ?_, fun c hcmem hcid => ?_⟩
    · rw [he]
      exact List.mem_map.mpr ⟨c, hcmem, by simp [hcid]⟩
    · rw [he]
      exact List.mem_map.mpr ⟨c, hcmem, by simp [hcid]⟩
  · simp [createOutreachLog, ha]

/-- Witness for C10: the theorem applied to a concrete person with a
company. -/
theorem c10_witness :
    (createOutreachLog [] [exPerson] [exCompany] exNoteReq 1 0).2 =
      [exCompany].map fun c =>
        if c.id = 5 then { c with is_contacted := true } else c :=
  ((c10_note_sent_marks_company_contacted [] [exPerson] [exCompany] exNoteReq
    1 0 exPerson 5 (by decide) (by decide)).2.1 rfl).1

/-! ## C6 -/

/-- C6 counterexample: a non-follow_up creation request that carries a
sequence number is not rejected — the handler silently drops the number and
a template row is created, where the claim says the request is rejected and
no row is created. -/
theorem c6_non_follow_up_with_seq_created :
    exMessageReqWithSeq.sequence_number = some 3 ∧
    exMessageReqWithSeq.tkind ≠ TKind.follow_up ∧
    (buildTemplateRow exMessageReqWithSeq 1 0).sequence_number = none ∧
    createTemplate [] exMessageReqWithSeq 1 0 =
      Except.ok ([buildTemplateRow exMessageReqWithSeq 1 0],
        buildTemplateRow exMessageReqWithSeq 1 0) := by
  exact ⟨rfl, by decide, rfl, rfl⟩

/-- C6 (amended): creating a follow_up template without a sequenceNumber is
rejected by the follow_up_sequence_number_check constraint and no row is
created; creating a non-follow_up template always succeeds — a supplied
sequenceNumber is silently discarded and the created row carries none. -/
theorem c6_creation_validation (db : List Template) (body : TemplateReq)
    (newId now : Nat) :
    (body.tkind = TKind.follow_up → body.sequence_number = none →
      createTemplate db body newId now =
        Except.error "follow_up_sequence_number_check") ∧
    (body.tkind ≠ TKind.follow_up →
      createTemplate db body newId now =
        Except.ok (db ++ [buildTemplateRow body newId now],
          buildTemplateRow body newId now) ∧
      (buildTemplateRow body newId now).sequence_number = none) := by
  constructor
  · intro h1 h2
    simp [createTemplate, buildTemplateRow, sequenceNumberCheck, h1, h2]
  · intro h1
    cases hk : body.tkind <;>
      simp_all [createTemplate, buildTemplateRow, sequenceNumberCheck]

/-! ## C9 -/

/-- C9 counterexample: with two current message templates embedded
older-first, the pick is the older one — list position, not the most
recently created. -/
theorem c9_picks_list_order_not_recency :
    populateMessageTemplate exTwoCurrentProfile TKind.message =
      some exOlderCurrent ∧
    exNewerCurrent ∈ exTwoCurrentProfile.message_templates ∧
    exNewerCurrent.is_current = true ∧
    exNewerCurrent.tkind = TKind.message ∧
    exOlderCurrent.created_at < exNewerCurrent.created_at := by
  decide

/-- C9 (amended): current-template resolution returns the first template of
the profile's embedded template list (in the order the store returned it,
which the profiles API does not sort by creation time) with is_current true
and the requested kind, and none exactly when no template qualifies. -/
theorem c9_current_template_pick (profile : Profile) (kind : TKind) :
    (populateMessageTemplate profile kind = none ↔
      ∀ t ∈ profile.message_templates,
        ¬(t.is_current = true ∧ t.tkind = kind)) ∧
    ∀ t, populateMessageTemplate profile kind = some t →
      t.is_current = true ∧ t.tkind = kind ∧
      ∃ pre post, profile.message_templates = pre ++ t :: post ∧
        ∀ u ∈ pre, ¬(u.is_current = true ∧ u.tkind = kind) := by
  constructor
  · rw [populateMessageTemplate, List.find?_eq_none]
    constructor
    · intro h t ht
      have := h t ht
      simpa using this
    · intro h t ht
      have := h t ht
      simpa using this
  · intro t ht
    rw [populateMessageTemplate, List.find?_eq_some] at ht
    obtain ⟨hq, pre, post, hsplit, hpre⟩ := ht
    have hq' : t.is_current = true ∧ t.tkind = kind := by simpa using hq
    refine ⟨hq'.1, hq'.2, pre, post, hsplit, fun u hu => ?_⟩
    have := hpre u hu
    simp at this
    rintro ⟨h1, h2⟩
    rcases this with h | h
    · simp [h1] at h
    · exact h h2

/-! ## C4 -/

/-- An exact candidate (sequence_number equal to the target) is also a
fallback candidate. -/
theorem exact_imp_fallback {n : Nat} {t : Template}
    (h : exactFollowUp n t = true) : fallbackFollowUp n t = true := by
  simp only [exactFollowUp, Bool.and_eq_true, decide_eq_true_eq] at h
  obtain ⟨⟨h1, h2⟩, h3⟩ := h
  simp only [fallbackFollowUp, Bool.and_eq_true, decide_eq_true_eq]
  refine ⟨⟨h1, h2⟩, ?_⟩
  rw [h3]
  simp

/-- C4: follow-up resolution with target = completedFollowUpCount + 1
returns an isCurrent follow_up template with sequenceNumber equal to the
target when one exists; otherwise it returns, among isCurrent follow_up
templates with sequenceNumber at most the target, one with the largest
sequenceNumber; it returns none exactly when no candidate exists; and on a
profile with current follow_up templates at sequences 1 and 2 only, counts
0, 1 and 5 resolve to sequences 1, 2 and 2. -/
theorem c4_follow_up_resolution (profile : Profile)
    (completedFollowUpCount : Nat) :
    (∀ t, profile.message_templates.find?
        (exactFollowUp (completedFollowUpCount + 1)) = some t →
      getFollowUpTemplate profile (completedFollowUpCount + 1) = some t ∧
      exactFollowUp (completedFollowUpCount + 1) t = true ∧
      t ∈ profile.message_templates) ∧
    (∀ t, getFollowUpTemplate profile (completedFollowUpCount + 1) = some t →
      t ∈ profile.message_templates ∧
      fallbackFollowUp (completedFollowUpCount + 1) t = true ∧
      (profile.message_templates.find?
          (exactFollowUp (completedFollowUpCount + 1)) = none →
        ∀ u ∈ profile.message_templates,
          fallbackFollowUp (completedFollowUpCount + 1) u = true →
          u.sequence_number.getD 0 ≤ t.sequence_number.getD 0)) ∧
    (getFollowUpTemplate profile (completedFollowUpCount + 1) = none ↔
      ∀ u ∈ profile.message_templates,
        fallbackFollowUp (completedFollowUpCount + 1) u = false) ∧
    getFollowUpTemplate exFollowUpProfile (0 + 1) = some exSeq1 ∧
    getFollowUpTemplate exFollowUpProfile (1 + 1) = some exSeq2 ∧
    getFollowUpTemplate exFollowUpProfile (5 + 1) = some exSeq2 := by
  have htrans : ∀ a b c : Template,
      (decide (b.sequence_number.getD 0 ≤ a.sequence_number.getD 0)) = true →
      (decide (c.sequence_number.getD 0 ≤ b.sequence_number.getD 0)) = true →
      (decide (c.sequence_number.getD 0 ≤ a.sequence_number.getD 0)) = true := by
    intro a b c h1 h2
    simp only [decide_eq_true_eq] at *
    omega
  have htotal : ∀ a b : Template,
      ((decide (b.sequence_number.getD 0 ≤ a.sequence_number.getD 0)) ||
       (decide (a.sequence_number.getD 0 ≤ b.sequence_number.getD 0))) = true := by
    intro a b
    simp only [Bool.or_eq_true, decide_eq_true_eq]
    omega
  refine ⟨?_, ?_, ?_, ?_, ?_, ?_⟩
  · intro t h
    exact ⟨by simp [getFollowUpTemplate, h], List.find?_some h,
      List.mem_of_find?_eq_some h⟩
  · intro t h
    cases hE : profile.message_templates.find?
        (exactFollowUp (completedFollowUpCount + 1)) with
    | some e =>
      rw [getFollowUpTemplate, hE] at h
      have ht : t = e := by simpa using h.symm
      subst ht
      refine ⟨List.mem_of_find?_eq_some hE,
        exact_imp_fallback (List.find?_some hE), fun hN => ?_⟩
      exact absurd hN (by simp)
    | none =>
      rw [getFollowUpTemplate, hE] at h
      simp only at h
      rw [List.head?_eq_some_iff] at h
      obtain ⟨ys, hys⟩ := h
      have htmem : t ∈ (profile.message_templates.filter
          (fallbackFollowUp (completedFollowUpCount + 1))).mergeSort
          (fun a b => b.sequence_number.getD 0 ≤ a.sequence_number.getD 0) := by
        rw [hys]; exact List.mem_cons_self t ys
      have htf := List.mem_filter.mp (List.mem_mergeSort.mp htmem)
      refine ⟨htf.1, htf.2, fun _ u hu hfu => ?_⟩
      have hum : u ∈ (profile.message_templates.filter
          (fallbackFollowUp (completedFollowUpCount + 1))).mergeSort
          (fun a b => b.sequence_number.getD 0 ≤ a.sequence_number.getD 0) :=
        List.mem_mergeSort.mpr (List.mem_filter.mpr ⟨hu, hfu⟩)
      have hsorted := List.sorted_mergeSort htrans htotal
        (profile.message_templates.filter
          (fallbackFollowUp (completedFollowUpCount + 1)))
      rw [hys] at hsorted hum
      rcases List.mem_cons.mp hum with he | hmem
      · subst he; omega
      · have := List.rel_of_pairwise_cons hsorted hmem
        simpa using this
  · constructor
    · intro h
      cases hE : profile.message_templates.find?
          (exactFollowUp (completedFollowUpCount + 1)) with
      | some e => rw [getFollowUpTemplate, hE] at h; simp at h
      | none =>
        rw [getFollowUpTemplate, hE] at h
        simp only [List.head?_eq_none_iff] at h
        have hperm := List.mergeSort_perm (profile.message_templates.filter
          (fallbackFollowUp (completedFollowUpCount + 1)))
          (fun a b => b.sequence_number.getD 0 ≤ a.sequence_number.getD 0)
        rw [h] at hperm
        have hnil := hperm.symm.eq_nil
        intro u hu
        by_contra hfu
        simp only [Bool.not_eq_false] at hfu
        have : u ∈ ([] : List Template) := by
          rw [← hnil]; exact List.mem_filter.mpr ⟨hu, hfu⟩
        cases this
    · intro h
      have hE : profile.message_templates.find?
          (exactFollowUp (completedFollowUpCount + 1)) = none := by
        rw [List.find?_eq_none]
        intro x hx hpx
        have := exact_imp_fallback hpx
        rw [h x hx] at this
        cases this
      have hfil : profile.message_templates.filter
          (fallbackFollowUp (completedFollowUpCount + 1)) = [] := by
        rw [List.filter_eq_nil_iff]
        intro a ha
        rw [h a ha]
        simp
      rw [getFollowUpTemplate, hE, hfil]
      simp
  · simp [getFollowUpTemplate, exFollowUpProfile, exSeq1, exSeq2,
      exactFollowUp, fallbackFollowUp]
  · simp [getFollowUpTemplate, exFollowUpProfile, exSeq1, exSeq2,
      exactFollowUp, fallbackFollowUp]
  · simp [getFollowUpTemplate, exFollowUpProfile, exSeq1, exSeq2,
      exactFollowUp, fallbackFollowUp, List.mergeSort, List.merge]

/-! ## C7 -/

/-- C7: iterating a current follow_up template deactivates the original and
then fails — the insert omits sequence_number, so the copy violates the
follow_up_sequence_number_check constraint and no new template is created,
leaving the original deactivated with no replacement; iterating a
non-follow_up template behaves as the claim says except that the copy never
carries a sequence_number (null for these kinds anyway). -/
theorem c7_iterate_copy_loses_sequence_number :
    exIterFollowUp.tkind = TKind.follow_up ∧
    exIterFollowUp.sequence_number = some 1 ∧
    iterateTemplate [exIterFollowUp] 1 2 5 =
      ([{ exIterFollowUp with is_current := false }],
        Except.error "follow_up_sequence_number_check") ∧
    iterateTemplate [exIterMessage] 3 4 6 =
      ([{ exIterMessage with is_current := false },
          { id := 4, profile_id := 1, name := "Cold Intro v2",
            tkind := TKind.message, content := "Hello", is_current := true,
            sequence_number := none, notes := some "n", created_at := 6 }],
        Except.ok
          { id := 4, profile_id := 1, name := "Cold Intro v2",
            tkind := TKind.message, content := "Hello", is_current := true,
            sequence_number := none, notes := some "n", created_at := 6 }) := by
  exact ⟨rfl, rfl, rfl, rfl⟩

/-! ## C2 -/

/-- C2 counterexample: a pending note_sent event whose details.message_type
is "message" is the contact's most recent (and only) non-replied note_sent
event, yet the inbound handler leaves it untouched — the code additionally
requires details.message_type "connection", which the claim omits. -/
theorem c2_message_mode_note_not_transitioned :
    exMessageModeLog.action = OutreachAction.note_sent ∧
    exMessageModeLog.outcome = some Outcome.pending ∧
    onInboundReceived [exMessageModeLog] = [exMessageModeLog] := by
  decide

/-- C2 (amended): on a received message the handler finds the most recent
outreach event whose action is note_sent AND whose details.message_type is
"connection" with outcome pending/accepted/unset and sets exactly that
event's outcome to replied; if none qualifies it is a no-op, not an error.
Stated over the log list ordered by created_at descending (as the API
returns it) with distinct ids. -/
theorem c2_inbound_reply_transition (logs : List OutreachLog)
    (hid : (logs.map OutreachLog.id).Nodup)
    (hsort : logs.Pairwise fun a b => b.created_at ≤ a.created_at) :
    (logs.find? qualifiesForReply = none → onInboundReceived logs = logs) ∧
    ∀ o, logs.find? qualifiesForReply = some o →
      o ∈ logs ∧ qualifiesForReply o = true ∧
      (∀ q ∈ logs, qualifiesForReply q = true → q.created_at ≤ o.created_at) ∧
      ∃ pre post, logs = pre ++ o :: post ∧
        (∀ a ∈ pre, qualifiesForReply a = false) ∧
        onInboundReceived logs =
          pre ++ { o with outcome := some Outcome.replied } :: post := by
  constructor
  · intro h
    rw [onInboundReceived, h]
  · intro o h
    have hq := List.find?_some h
    obtain ⟨_, pre, post, hsplit, hpre⟩ := List.find?_eq_some.mp h
    have hpre' : ∀ a ∈ pre, qualifiesForReply a = false := by
      intro a ha
      have := hpre a ha
      simpa using this
    have hidne : ∀ a ∈ pre, a.id ≠ o.id := by
      intro a ha hne
      rw [hsplit, List.map_append, List.map_cons] at hid
      obtain ⟨_, _, hdisj⟩ := List.nodup_append.mp hid
      exact hdisj (List.mem_map.mpr ⟨a, ha, rfl⟩) (by
        rw [hne]; exact List.mem_cons_self _ _)
    have hidpost : ∀ a ∈ post, a.id ≠ o.id := by
      intro a ha hne
      rw [hsplit, List.map_append, List.map_cons] at hid
      obtain ⟨_, hnd2, _⟩ := List.nodup_append.mp hid
      have := (List.nodup_cons.mp hnd2).1
      exact this (by rw [← hne]; exact List.mem_map.mpr ⟨a, ha, rfl⟩)
    refine ⟨?_, hq, ?_, pre, post, hsplit, hpre', ?_⟩
    · rw [hsplit]
      exact List.mem_append.mpr (Or.inr (List.mem_cons_self _ _))
    · intro q hqmem hqq
      rw [hsplit] at hqmem
      have hsort' := hsplit ▸ hsort
      rcases List.mem_append.mp hqmem with hin | hin
      · exact absurd hqq (by simp [hpre' q hin])
      · rcases List.mem_cons.mp hin with he | hin
        · subst he
          exact Nat.le_refl _
        · have hp2 := (List.pairwise_append.mp hsort').2.1
          exact List.rel_of_pairwise_cons hp2 hin
    · rw [onInboundReceived, h]
      simp only [putOutcome]
      rw [hsplit, List.map_append, List.map_cons]
      have h1 : pre.map (fun l =>
          if l.id = o.id then { l with outcome := some Outcome.replied }
          else l) = pre :=
        map_eq_self_of fun a ha => by simp [hidne a ha]
      have h2 : post.map (fun l =>
          if l.id = o.id then { l with outcome := some Outcome.replied }
          else l) = post :=
        map_eq_self_of fun a ha => by simp [hidpost a ha]
      rw [h1, h2]
      simp

/-- Witness for C2: the amended theorem applied to a singleton list whose
event is already replied — the handler is a no-op. -/
theorem c2_witness : onInboundReceived [exRepliedLog2] = [exRepliedLog2] :=
  (c2_inbound_reply_transition [exRepliedLog2] (by simp)
    (List.pairwise_singleton _ _)).1 (by decide)

/-! ## C5 -/

/-- In the substring step, with no exact match anywhere and no
substring-matching role in the profiles before `prof`, the matcher returns
`prof` together with its longest title-contained role. -/
theorem substring_step_first_profile
    (t : String) (pre : List Profile) (prof : Profile) (post : List Profile)
    (ht : ¬t = "")
    (hnoexact : ∀ p ∈ pre ++ prof :: post, ∀ r ∈ p.roles,
      ¬lowerStr r = lowerStr t)
    (hpre : ∀ p ∈ pre, ∀ r ∈ p.roles,
      strIncludes (lowerStr t) (lowerStr r) = false)
    (hmatch : ∃ r ∈ prof.roles, strIncludes (lowerStr t) (lowerStr r) = true) :
    ∃ r, findProfileForTitle (some t) (pre ++ prof :: post) =
        some (MatchResult.mk prof r) ∧
      r ∈ prof.roles ∧ strIncludes (lowerStr t) (lowerStr r) = true ∧
      ∀ r' ∈ prof.roles, strIncludes (lowerStr t) (lowerStr r') = true →
        r'.length ≤ r.length := by
  have htrans : ∀ a b c : String, (decide (b.length ≤ a.length)) = true →
      (decide (c.length ≤ b.length)) = true →
      (decide (c.length ≤ a.length)) = true := by
    intro a b c h1 h2
    simp only [decide_eq_true_eq] at *
    omega
  have htotal : ∀ a b : String, ((decide (b.length ≤ a.length)) ||
      (decide (a.length ≤ b.length))) = true := by
    intro a b
    simp only [Bool.or_eq_true, decide_eq_true_eq]
    omega
  -- the inner find? on the length-sorted roles of prof succeeds
  have hS : ∃ r0, (prof.roles.mergeSort fun a b => b.length ≤ a.length).find?
      (fun r => strIncludes (lowerStr t) (lowerStr r)) = some r0 := by
    rw [← Option.isSome_iff_exists, List.find?_isSome]
    obtain ⟨r, hr, hinc⟩ := hmatch
    exact ⟨r, List.mem_mergeSort.mpr hr, hinc⟩
  obtain ⟨r0, hfind⟩ := hS
  obtain ⟨hp0, as, bs, hsplit, has⟩ := List.find?_eq_some.mp hfind
  have hr0mem : r0 ∈ prof.roles :=
    List.mem_mergeSort.mp (List.mem_of_find?_eq_some hfind)
  have hmax : ∀ r' ∈ prof.roles,
      strIncludes (lowerStr t) (lowerStr r') = true →
      r'.length ≤ r0.length := by
    intro r' hr' hinc'
    have hmem' : r' ∈ prof.roles.mergeSort fun a b => b.length ≤ a.length :=
      List.mem_mergeSort.mpr hr'
    have hsorted := List.sorted_mergeSort htrans htotal prof.roles
    rw [hsplit] at hmem' hsorted
    rcases List.mem_append.mp hmem' with hin | hin
    · have := has r' hin
      rw [hinc'] at this
      simp at this
    · rcases List.mem_cons.mp hin with he | hin
      · subst he
        exact Nat.le_refl _
      · have := List.rel_of_pairwise_cons
          (List.pairwise_append.mp hsorted).2.1 hin
        simpa using this
  refine ⟨r0, ?_, hr0mem, hp0, hmax⟩
  rw [findProfileForTitle, if_neg ht]
  have hstep1 : (pre ++ prof :: post).findSome? (fun profile =>
      (profile.roles.find? fun r => lowerStr r = lowerStr t).map
        fun r => MatchResult.mk profile r) = none := by
    rw [List.findSome?_eq_none_iff]
    intro p hp
    rw [Option.map_eq_none', List.find?_eq_none]
    intro r hr
    simp [hnoexact p hp r hr]
  have hpart1 : pre.findSome? (fun profile =>
      ((profile.roles.mergeSort fun a b => b.length ≤ a.length).find?
        fun r => strIncludes (lowerStr t) (lowerStr r)).map
        fun r => MatchResult.mk profile r) = none := by
    rw [List.findSome?_eq_none_iff]
    intro p hp
    rw [Option.map_eq_none', List.find?_eq_none]
    intro r hr
    rw [hpre p hp r (List.mem_mergeSort.mp hr)]
    simp
  simp only [hstep1, List.findSome?_append, hpart1, List.findSome?_cons,
    hfind, Option.none_or]
  simp

/-- C5 counterexample: profiles [roles ["Manager"], roles ["Project
Manager"]] and title "Senior Project Manager": no exact match, both roles
are substrings of the title, yet the matcher returns "Manager" from the
first profile — not the longest matching role across all profiles. -/
theorem c5_longer_role_in_later_profile_loses :
    findProfileForTitle (some "Senior Project Manager")
        [exManagerProfile, exProjectManagerProfile] =
      some (MatchResult.mk exManagerProfile "Manager") ∧
    strIncludes (lowerStr "Senior Project Manager")
      (lowerStr "Project Manager") = true ∧
    "Project Manager" ∈ exProjectManagerProfile.roles ∧
    "Manager".length < "Project Manager".length := by
  obtain ⟨r, heq, hrmem, -, -⟩ := substring_step_first_profile
    "Senior Project Manager" [] exManagerProfile [exProjectManagerProfile]
    (by decide) (by decide) (by simp) (by decide)
  have hr : r = "Manager" := by
    simpa [exManagerProfile] using hrmem
  subst hr
  exact ⟨heq, by decide, by decide, by decide⟩

/-- C5 (amended): when no profile role equals the title and at least one
role is contained in it, the matcher scans profiles in list order and
returns, for the first profile with any substring-matching role, that
profile's longest such role; a longer matching role in a later profile is
not preferred over it. -/
theorem c5_substring_longest_within_first_profile
    (t : String) (pre : List Profile) (prof : Profile) (post : List Profile)
    (ht : ¬t = "")
    (hnoexact : ∀ p ∈ pre ++ prof :: post, ∀ r ∈ p.roles,
      ¬lowerStr r = lowerStr t)
    (hpre : ∀ p ∈ pre, ∀ r ∈ p.roles,
      strIncludes (lowerStr t) (lowerStr r) = false)
    (hmatch : ∃ r ∈ prof.roles, strIncludes (lowerStr t) (lowerStr r) = true) :
    ∃ r, findProfileForTitle (some t) (pre ++ prof :: post) =
        some (MatchResult.mk prof r) ∧
      r ∈ prof.roles ∧ strIncludes (lowerStr t) (lowerStr r) = true ∧
      ∀ r' ∈ prof.roles, strIncludes (lowerStr t) (lowerStr r') = true →
        r'.length ≤ r.length :=
  substring_step_first_profile t pre prof post ht hnoexact hpre hmatch

/-- Witness for C5: the amended theorem applied to the two concrete
profiles. -/
theorem c5_witness :
    ∃ r, findProfileForTitle (some "Senior Project Manager")
        [exManagerProfile, exProjectManagerProfile] =
      some (MatchResult.mk exManagerProfile r) ∧
      r ∈ exManagerProfile.roles ∧
      strIncludes (lowerStr "Senior Project Manager") (lowerStr r) = true ∧
      ∀ r' ∈ exManagerProfile.roles,
        strIncludes (lowerStr "Senior Project Manager") (lowerStr r') = true →
        r'.length ≤ r.length :=
  c5_substring_longest_within_first_profile
    "Senior Project Manager" [] exManagerProfile [exProjectManagerProfile]
    (by decide) (by decide) (by simp) (by decide)

/-! ## C8 -/

/-- Every digitChar output is a digit character. -/
theorem digitChar_isDigit (n : Nat) : (digitChar n).isDigit = true := by
  unfold digitChar
  split <;> decide

/-- The numeric value of digitChar n, for n below 10. -/
theorem digitChar_val {n : Nat} (h : n < 10) :
    (digitChar n).toNat - 48 = n := by
  interval_cases n <;> decide

/-- Appending one digit multiplies the parsed value by ten and adds it. -/
theorem digitsToNat_append_singleton (a : List Char) (c : Char) :
    digitsToNat (a ++ [c]) = digitsToNat a * 10 + (c.toNat - 48) := by
  simp [digitsToNat, List.foldl_append]

/-- With enough fuel, toDecimalAux renders a nonempty all-digit list whose
parse is the input. -/
theorem toDecimalAux_spec :
    ∀ fuel n, n < 10 ^ (fuel + 1) →
      toDecimalAux fuel n ≠ [] ∧
      (∀ c ∈ toDecimalAux fuel n, c.isDigit = true) ∧
      digitsToNat (toDecimalAux fuel n) = n := by
  intro fuel
  induction fuel with
  | zero =>
    intro n hn
    have h10 : n < 10 := by simpa using hn
    refine ⟨by simp [toDecimalAux], ?_, ?_⟩
    · intro c hc
      simp [toDecimalAux] at hc
      subst hc
      exact digitChar_isDigit n
    · simp [toDecimalAux, digitsToNat, digitChar_val h10]
  | succ fuel ih =>
    intro n hn
    by_cases h10 : n < 10
    · refine ⟨by simp [toDecimalAux, h10], ?_, ?_⟩
      · intro c hc
        simp [toDecimalAux, h10] at hc
        subst hc
        exact digitChar_isDigit n
      · simp [toDecimalAux, h10, digitsToNat, digitChar_val h10]
    · have hp : (10 : Nat) ^ (fuel + 1 + 1) = 10 ^ (fuel + 1) * 10 :=
        pow_succ 10 (fuel + 1)
      have hdiv : n / 10 < 10 ^ (fuel + 1) := by omega
      obtain ⟨hne, hdig, hval⟩ := ih (n / 10) hdiv
      have hmod : n % 10 < 10 := Nat.mod_lt _ (by omega)
      refine ⟨by simp [toDecimalAux, h10], ?_, ?_⟩
      · intro c hc
        simp only [toDecimalAux, if_neg h10, List.mem_append,
          List.mem_singleton] at hc
        rcases hc with hc | hc
        · exact hdig c hc
        · subst hc
          exact digitChar_isDigit _
      · rw [toDecimalAux, if_neg h10, digitsToNat_append_singleton, hval,
          digitChar_val hmod]
        omega

/-- toDecimal renders a nonempty all-digit list whose parse is the input. -/
theorem toDecimal_spec (n : Nat) :
    toDecimal n ≠ [] ∧
    (∀ c ∈ toDecimal n, c.isDigit = true) ∧
    digitsToNat (toDecimal n) = n := by
  refine toDecimalAux_spec n n ?_
  calc n < 2 ^ n := Nat.lt_two_pow n
  _ ≤ 10 ^ n := Nat.pow_le_pow_left (by omega) n
  _ ≤ 10 ^ (n + 1) := Nat.pow_le_pow_right (by omega) (Nat.le_succ n)

/-- takeWhile passes over a front segment it fully satisfies. -/
theorem takeWhile_append_of_all {p : Char → Bool} {a b : List Char}
    (h : ∀ x ∈ a, p x = true) :
    (a ++ b).takeWhile p = a ++ b.takeWhile p := by
  induction a with
  | nil => simp
  | cons x t ih =>
    have hx := h x (by simp)
    have ht := ih fun y hy => h y (by simp [hy])
    simp [List.takeWhile_cons, hx, ht]

/-- dropWhile consumes a front segment it fully satisfies. -/
theorem dropWhile_append_of_all {p : Char → Bool} {a b : List Char}
    (h : ∀ x ∈ a, p x = true) :
    (a ++ b).dropWhile p = b.dropWhile p := by
  induction a with
  | nil => simp
  | cons x t ih =>
    have hx := h x (by simp)
    have ht := ih fun y hy => h y (by simp [hy])
    simp [List.dropWhile_cons, hx, ht]

/-- A digit character is not a line terminator. -/
theorem isDigit_not_terminator {c : Char} (h : c.isDigit = true) :
    isLineTerminator c = false := by
  have h1 : c ≠ '\n' := fun e => absurd (e ▸ h) (by decide)
  have h2 : c ≠ '\r' := fun e => absurd (e ▸ h) (by decide)
  have h3 : c ≠ '\u2028' := fun e => absurd (e ▸ h) (by decide)
  have h4 : c ≠ '\u2029' := fun e => absurd (e ▸ h) (by decide)
  simp [isLineTerminator, h1, h2, h3, h4]

/-- Characters of a trimmed list come from the list. -/
theorem mem_trimList {c : Char} {l : List Char} (h : c ∈ trimList l) :
    c ∈ l := by
  simp only [trimList, List.mem_reverse] at h
  have h2 := (List.dropWhile_sublist _).subset h
  rw [List.mem_reverse] at h2
  exact (List.dropWhile_sublist _).subset h2

/-- A successful version match has a line-terminator-free group 1: the
regex's dot cannot match one. -/
theorem matchVersion_noTerm {l base : List Char} {n : Nat}
    (h : matchVersion l = some (base, n)) :
    ∀ c ∈ base, isLineTerminator c = false := by
  simp only [matchVersion] at h
  split at h
  · simp at h
  · split at h
    · simp at h
    · rename_i heq
      split at h
      · split at h
        · simp at h
          obtain ⟨-, hall, hbase, -⟩ := h
          intro c hc
          rw [← hbase] at hc
          exact hall c hc
        · split at h
          · simp at h
          · rename_i hguard
            simp only [Option.some.injEq, Prod.mk.injEq] at h
            obtain ⟨hb, -⟩ := h
            subst hb
            rw [Bool.not_eq_true, List.any_eq_false] at hguard
            intro c hc
            simpa using hguard c hc
      · simp at h

/-- Any name of the shape front ++ " v" ++ digits, with a
line-terminator-free front, parses as a version marker whose number is the
parseInt of the digits. -/
theorem matchVersion_marker (front ds : List Char) (hne : ds ≠ [])
    (hdig : ∀ c ∈ ds, c.isDigit = true)
    (hterm : ∀ c ∈ front, isLineTerminator c = false) :
    ∃ b, matchVersion (front ++ ' ' :: 'v' :: ds) =
      some (b, parseIntJS ds) := by
  have hdigrev : ∀ c ∈ ds.reverse, Char.isDigit c = true := fun c hc =>
    hdig c (List.mem_reverse.mp hc)
  have hv : Char.isDigit 'v' = false := by decide
  have htake : List.takeWhile Char.isDigit
      (ds.reverse ++ 'v' :: ' ' :: front.reverse) = ds.reverse := by
    rw [takeWhile_append_of_all hdigrev, List.takeWhile_cons]
    simp [hv]
  have hdrop : List.dropWhile Char.isDigit
      (ds.reverse ++ 'v' :: ' ' :: front.reverse) =
      'v' :: ' ' :: front.reverse := by
    rw [dropWhile_append_of_all hdigrev, List.dropWhile_cons]
    simp [hv]
  by_cases hb : ((' ' :: front.reverse).dropWhile Char.isWhitespace).reverse = []
  · refine ⟨List.take 1 (front ++ [' ']), ?_⟩
    simp only [matchVersion, splitTrailingRun, List.reverse_append,
      List.reverse_cons, List.reverse_nil, List.nil_append,
      List.append_assoc, List.cons_append, List.singleton_append,
      htake, hdrop, List.reverse_reverse]
    rw [if_neg (by simpa using hne), if_pos (Or.inl trivial)]
    have hcond : ((List.dropWhile Char.isWhitespace
        (' ' :: front.reverse)).reverse).isEmpty = true := by
      rw [hb]
      rfl
    rw [if_pos hcond]
    have htk : ¬(List.take 1 (front ++ [' '])).isEmpty = true := by
      cases front <;> simp
    rw [if_neg htk]
    have hg : (List.take 1 (front ++ [' '])).any isLineTerminator = false := by
      rw [List.any_eq_false]
      intro c hc
      have hc2 := List.mem_of_mem_take hc
      rcases List.mem_append.mp hc2 with hin | hin
      · simp [hterm c hin]
      · simp only [List.mem_singleton] at hin
        subst hin
        decide
    rw [if_neg (by rw [hg]; simp)]
  · refine ⟨((' ' :: front.reverse).dropWhile Char.isWhitespace).reverse, ?_⟩
    simp only [matchVersion, splitTrailingRun, List.reverse_append,
      List.reverse_cons, List.reverse_nil, List.nil_append,
      List.append_assoc, List.cons_append, List.singleton_append,
      htake, hdrop, List.reverse_reverse]
    rw [if_neg (by simpa using hne), if_pos (Or.inl trivial)]
    have hcond : ¬((List.dropWhile Char.isWhitespace
        (' ' :: front.reverse)).reverse).isEmpty = true := by
      simpa [List.isEmpty_iff] using hb
    rw [if_neg hcond, if_neg hcond]
    have hg : ((List.dropWhile Char.isWhitespace
        (' ' :: front.reverse)).reverse).any isLineTerminator = false := by
      rw [List.any_eq_false]
      intro c hc
      rw [List.mem_reverse] at hc
      have hc2 := (List.dropWhile_sublist _).subset hc
      rcases List.mem_cons.mp hc2 with hin | hin
      · subst hin
        decide
      · rw [List.mem_reverse] at hin
        simp [hterm c hin]
    rw [if_neg (by rw [hg]; simp)]

/-- The increment preserves line-terminator-freedom. -/
theorem noTerm_increment {s : String}
    (h : ∀ c ∈ s.data, isLineTerminator c = false) :
    ∀ c ∈ (incrementVersionName s).data, isLineTerminator c = false := by
  intro c hc
  cases hm : matchVersion s.data with
  | none =>
    have hd : (incrementVersionName s).data = s.data ++ [' ', 'v', '2'] := by
      simp [incrementVersionName, incrementVersionList, hm]
    rw [hd] at hc
    rcases List.mem_append.mp hc with h1 | h1
    · exact h c h1
    · have h2 : c = ' ' ∨ c = 'v' ∨ c = '2' := by simpa using h1
      rcases h2 with h2 | h2 | h2 <;> (subst h2; decide)
  | some p =>
    obtain ⟨base, n⟩ := p
    have hbase := matchVersion_noTerm hm
    have hd : (incrementVersionName s).data =
        trimList base ++ ' ' :: 'v' :: toDecimal (roundToDouble (n + 1)) := by
      simp [incrementVersionName, incrementVersionList, hm]
    rw [hd] at hc
    rcases List.mem_append.mp hc with h1 | h1
    · exact hbase c (mem_trimList h1)
    · rcases List.mem_cons.mp h1 with h2 | h2
      · subst h2
        decide
      · rcases List.mem_cons.mp h2 with h3 | h3
        · subst h3
          decide
        · exact isDigit_not_terminator
            ((toDecimal_spec (roundToDouble (n + 1))).2.1 c h3)

/-- Within the exactly-representable binary64 range and on
line-terminator-free names, one application of the increment raises the
carried version by one. -/
theorem versionOfName_increment (s : String)
    (hterm : ∀ c ∈ s.data, isLineTerminator c = false)
    (hsafe : versionOfName s + 1 ≤ 2 ^ 53) :
    versionOfName (incrementVersionName s) = versionOfName s + 1 := by
  rw [versionOfName, versionOfName, incrementVersionName]
  cases hm : matchVersion s.data with
  | none =>
    obtain ⟨b, hb⟩ := matchVersion_marker s.data ['2'] (by simp) (by decide)
      hterm
    simp only [incrementVersionList, hm]
    rw [hb]
    show parseIntJS ['2'] = 1 + 1
    decide
  | some p =>
    obtain ⟨base, n⟩ := p
    have hvs : versionOfName s = n := by
      rw [versionOfName, hm]
    rw [hvs] at hsafe
    have hround : roundToDouble (n + 1) = n + 1 := by
      rw [roundToDouble, if_pos hsafe]
    obtain ⟨hne, hdig, hval⟩ := toDecimal_spec (n + 1)
    have hterm2 : ∀ c ∈ trimList base, isLineTerminator c = false :=
      fun c hc => matchVersion_noTerm hm c (mem_trimList hc)
    obtain ⟨b, hb⟩ := matchVersion_marker (trimList base) (toDecimal (n + 1))
      hne hdig hterm2
    have hpi : parseIntJS (toDecimal (n + 1)) = n + 1 := by
      rw [parseIntJS, hval, hround]
    rw [hpi] at hb
    simp only [incrementVersionList, hm, hround]
    rw [hb]

/-- Iterating the increment preserves line-terminator-freedom. -/
theorem noTerm_iterate (s : String)
    (hterm : ∀ c ∈ s.data, isLineTerminator c = false) (k : Nat) :
    ∀ c ∈ (incrementVersionName^[k] s).data, isLineTerminator c = false := by
  induction k with
  | zero => simpa using hterm
  | succ k ih =>
    rw [Function.iterate_succ_apply']
    exact noTerm_increment ih

/-- While the version stays at most 2^53, k applications of the increment
raise the carried version by k. -/
theorem versionOfName_iterate (s : String)
    (hterm : ∀ c ∈ s.data, isLineTerminator c = false) (k : Nat)
    (hsafe : versionOfName s + k ≤ 2 ^ 53) :
    versionOfName (incrementVersionName^[k] s) = versionOfName s + k := by
  revert hsafe
  induction k with
  | zero =>
    intro _
    simp
  | succ k ih =>
    intro hsafe
    have h1 : versionOfName s + k ≤ 2 ^ 53 := by omega
    have h2 := ih h1
    rw [Function.iterate_succ_apply']
    rw [versionOfName_increment _ (noTerm_iterate s hterm k) (by omega)]
    omega

/-- C8 counterexample: "Cold Intro v9007199254740992" carries version 2^53;
parseInt yields the double 2^53 and the binary64 sum 2^53 + 1 rounds back to
2^53 (half to even), so the increment returns the very same name — it
neither advances the version nor avoids collisions: one application and two
applications give equal names. -/
theorem c8_float_fixed_point :
    incrementVersionName "Cold Intro v9007199254740992" =
      "Cold Intro v9007199254740992" ∧
    versionOfName "Cold Intro v9007199254740992" = 9007199254740992 ∧
    incrementVersionName^[1] "Cold Intro v9007199254740992" =
      incrementVersionName^[2] "Cold Intro v9007199254740992" ∧
    (1 : Nat) ≠ 2 := by
  have h : incrementVersionName "Cold Intro v9007199254740992" =
      "Cold Intro v9007199254740992" := by decide
  refine ⟨h, by decide, ?_, by decide⟩
  simp [Function.iterate_succ_apply, h]

/-- C8 (amended): the version-increment transformation maps "Cold Intro" to
"Cold Intro v2", that to "Cold Intro v3", and "COLD INTRO V2" to version 3;
a name the regex does not match gets " v2" appended; and on names free of
line terminators, as long as the version stays within the exactly
representable binary64 range (at most 2^53), each application advances the
carried version by exactly one and distinct iteration counts give distinct
names. At 2^53 the rounding fixed point of c8_float_fixed_point takes over. -/
theorem c8_version_increment :
    incrementVersionName "Cold Intro" = "Cold Intro v2" ∧
    incrementVersionName "Cold Intro v2" = "Cold Intro v3" ∧
    incrementVersionName "COLD INTRO V2" = "COLD INTRO v3" ∧
    (∀ s : String, matchVersion s.data = none →
      incrementVersionName s = s ++ " v2") ∧
    (∀ s : String, (∀ c ∈ s.data, isLineTerminator c = false) →
      versionOfName s + 1 ≤ 2 ^ 53 →
      versionOfName (incrementVersionName s) = versionOfName s + 1) ∧
    ∀ (s : String) (m k : Nat),
      (∀ c ∈ s.data, isLineTerminator c = false) →
      versionOfName s + m ≤ 2 ^ 53 → versionOfName s + k ≤ 2 ^ 53 →
      incrementVersionName^[m] s = incrementVersionName^[k] s → m = k := by
  refine ⟨by decide, by decide, by decide, ?_, versionOfName_increment, ?_⟩
  · intro s hm
    cases s with
    | mk sd =>
      simp only [incrementVersionName, incrementVersionList, hm]
      rfl
  · intro s m k hterm hm hk hmk
    have h1 := versionOfName_iterate s hterm m hm
    have h2 := versionOfName_iterate s hterm k hk
    rw [hmk, h2] at h1
    omega

end PapoogaReach

